import Mathlib

/-!
Shallow embedding of the `metaconf` package (src/src/metaconf) for the
verification of its natural-language specification.

Modules embedded:
 - `metaconf/node.py`   : `Node.__post_init__`, `dict_to_node`, `path_to_node`, `to_node`
 - `metaconf/handler.py`: `register_handler`, `parse_handler`, `infer_handler_from_path`
 - `metaconf/config.py` : `MetaConfig.read`, `MetaConfig.write`, `MetaConfig.nodes`,
                          `_str_is_json`, `_str_is_path`, `make_metaconfig`
 - `metaconf/utils.py`  : `switch_dir` (embedded inside `read`/`write`)

Modelling conventions:
 - Filesystem paths are lists of segments (`APath` below); Python `pathlib`
   operations (`resolve`, `is_absolute`, `expanduser`, `suffix`,
   `is_relative_to`) are translated to explicit list operations.
 - Python exceptions become the inductive `PyErr`; `warnings.warn` and
   `logger.warning` become values of `PyWarn` returned alongside results.
 - External collaborators (the JSON library, `importlib`, concrete handler
   classes, the OS filesystem) are parameters: functions passed to the
   embedded definitions.
 - Handler factories at the validation level are `FactoryM` records carrying
   the observable facts the code checks (`callable`, zero-arity call
   succeeds, call result satisfies the `Handler` protocol); at the runtime
   I/O level handlers are `HandlerM` records of read/write state
   transformers over the filesystem.
-/

namespace Metaconf

/-- Absolute, fully resolved filesystem path, as the list of its segments. -/
abbrev APath := List String

/-- Value stored in a configuration file (Python `Any` at handler level). -/
abbrev Val := String

/-- A `pathlib.Path` value: an absolute-flag plus segments (Python keeps
`".."` components in `parts` and drops `"."`). -/
structure PyPath where
  absolute : Bool
  segs : List String
deriving DecidableEq, Repr

/-- Splitting of a character list at every occurrence of a separator
character (the behaviour of `str.split(sep)` on the characters). -/
def splitCharsOn (sep : Char) : List Char → List (List Char)
  | [] => [[]]
  | c :: rest =>
    let r := splitCharsOn sep rest
    if c = sep then [] :: r
    else
      match r with
      | hd :: tl => (c :: hd) :: tl
      | [] => [[c]]

/-- Whether a string starts with the given character (used for
`s.startswith("/")` and `ext.startswith(".")`; written over the character
list). -/
def strHeadIs (c : Char) (s : String) : Bool :=
  match s.toList with
  | c0 :: _ => c0 = c
  | [] => false

/-- Translation of `pathlib.Path(s)`: leading slash makes it absolute, empty
and `"."` components are dropped. -/
def parsePyStr (s : String) : PyPath :=
  { absolute := strHeadIs '/' s
    segs := ((splitCharsOn '/' s.toList).map (fun l => String.mk l)).filter
        (fun seg => seg != "" && seg != ".") }

/-- Normalisation step of `Path.resolve()`: fold the segments over a base
absolute path, `".."` removing the last segment (staying at the root when
already there). Symbolic links are not modelled. -/
def resolveSegs (base : APath) (segs : List String) : APath :=
  segs.foldl (fun acc s => if s = ".." then acc.dropLast else acc ++ [s]) base

/-- Translation of `Path.resolve()` against the current working directory
`cwd` (an absolute path): a relative path is joined to `cwd`, an absolute
path stands alone, and `".."` segments are normalised away. -/
def resolvePath (cwd : APath) (p : PyPath) : APath :=
  resolveSegs (if p.absolute then [] else cwd) p.segs

/-- Translation of `Path.expanduser()`: a leading `"~"` segment is replaced
by the (absolute) home directory. The `~user` form is not modelled. -/
def expanduser (home : APath) (p : PyPath) : PyPath :=
  if p.absolute then p
  else
    match p.segs with
    | s :: rest => if s = "~" then { absolute := true, segs := home ++ rest } else p
    | [] => p

/-- Translation of `pathlib`'s `PurePath.suffix`: the part of the final
segment from its last dot on, provided that dot is neither the first nor the
last character of the segment. -/
def pySuffix (nm : String) : String :=
  let cs := nm.toList
  let rev := cs.reverse
  match rev.findIdx? (fun c => c = '.') with
  | none => ""
  | some k =>
    if k = 0 then ""
    else if k = cs.length - 1 then ""
    else String.mk (List.cons '.' (rev.take k).reverse)

/-- Last segment of a path, Python `Path(p).name` (empty for the bare root). -/
def lastSeg (p : PyPath) : String := (p.segs.getLast?).getD ""

/-- Python exceptions raised by the embedded code. `unsupportedInput` is
specifically the `TypeError` raised at the end of `to_node`, which names the
received type; other `TypeError`s carry their message tag. -/
inductive PyErr where
  | valueError (msg : String)
  | typeError (msg : String)
  | assertionError
  | keyError (key : String)
  | fileNotFound
  | notADirectory
  | fileExists
  | importError
  | exceptionMsg (msg : String)
  | unsupportedInput (tyName : String)
deriving DecidableEq, Repr

/-- Warning-level signals (`warnings.warn` / `logger.warning`). -/
inductive PyWarn where
  | absolutePath
  | overwriteName (name : String)
  | ambiguousExtension (ext : String)
deriving DecidableEq, Repr

/-- Observable behaviour of a handler-factory object, as checked by the
code: whether calling it with zero arguments succeeds (`arity_ok`), whether
the call result satisfies the `Handler` protocol (`result_is_handler`).
`tag` models Python object identity, distinguishing distinct factories. -/
structure FactoryM where
  arity_ok : Bool
  result_is_handler : Bool
  tag : Nat
deriving DecidableEq, Repr

/-- One entry of the handler registry: `{"handler": ..., "extensions": ...}`. -/
structure RegEntry where
  handler : FactoryM
  extensions : List String
deriving DecidableEq, Repr

/-- The process-wide `handler_registry` `OrderedDict`, as an ordered
association list. -/
abbrev Registry := List (String × RegEntry)

/-- Dictionary lookup in the registry. -/
def regLookup (reg : Registry) (k : String) : Option RegEntry :=
  reg.lookup k

/-- Assignment `handler_registry[name] = entry` with `OrderedDict`
semantics: an existing key keeps its original position and only its value is
replaced; a new key is appended at the end. -/
def regUpdate : Registry → String → RegEntry → Registry
  | [], k, v => [(k, v)]
  | (k0, v0) :: rest, k, v =>
    if k0 = k then (k0, v) :: rest else (k0, v0) :: regUpdate rest k v

/-- A Python value passed where the code checks `isinstance(..., str)`:
either a string or something else (identified by a type tag). -/
inductive PyVal where
  | str (s : String)
  | otherVal (ty : String)
deriving DecidableEq, Repr

/-- Whether a `PyVal` is a string (Python `isinstance(v, str)`). -/
def PyVal.isStr : PyVal → Bool
  | .str _ => true
  | .otherVal _ => false

/-- Whether a `PyVal` is a string starting with a dot (`ext.startswith(".")`;
only evaluated by the code after the all-strings assertion has passed). -/
def PyVal.startsWithDot : PyVal → Bool
  | .str s => strHeadIs '.' s
  | .otherVal _ => false

/-- Embedding of `register_handler` (handler.py lines 28-46). Returns the
registry after the call, the warnings emitted, and the exception raised (if
any). The order of steps follows the source: overwrite warning, `assert
isinstance(name, str)`, `handler()` invocation (raising `TypeError` when the
factory is not zero-argument), `assert isinstance(handler(), Handler)`,
extension assertions, and only then the single mutation of the registry. -/
def register_handler (reg : Registry) (name : PyVal) (handler : FactoryM)
    (extensions : List PyVal) : Registry × List PyWarn × Option PyErr :=
  let warns :=
    match name with
    | .str s => if (regLookup reg s).isSome then [PyWarn.overwriteName s] else []
    | _ => []
  match name with
  | .otherVal _ => (reg, warns, some PyErr.assertionError)
  | .str s =>
    if handler.arity_ok = false then
      (reg, warns, some (PyErr.typeError "factory call raised"))
    else if handler.result_is_handler = false then
      (reg, warns, some PyErr.assertionError)
    else if ¬ extensions.all PyVal.isStr then
      (reg, warns, some PyErr.assertionError)
    else if ¬ extensions.all PyVal.startsWithDot then
      (reg, warns, some PyErr.assertionError)
    else
      (regUpdate reg s
        { handler := handler
          extensions := extensions.filterMap (fun v => match v with | .str e => some e | _ => none) },
        warns, none)

/-- Embedding of `infer_handler_from_path` (handler.py lines 65-81): compute
the extension, collect the registry entries whose extension list contains
it, fail when none matches, warn when more than one does, and return the
handler of the last matching entry (`list(compatible_handlers.values())[-1]`). -/
def infer_handler_from_path (reg : Registry) (p : PyPath) :
    List PyWarn × Except PyErr FactoryM :=
  let extension := pySuffix (lastSeg p)
  let compatible := reg.filter (fun kv => kv.2.extensions.contains extension)
  match compatible.getLast? with
  | none =>
    ([], Except.error (PyErr.exceptionMsg "No handler found for extension in the handler registry."))
  | some last =>
    ((if compatible.length > 1 then [PyWarn.ambiguousExtension extension] else []),
      Except.ok last.2.handler)

/-- Result of `importlib.import_module` + `getattr` for a dotted reference:
whether the retrieved object is callable, and its factory behaviour. -/
structure Imported where
  isCallable : Bool
  fac : FactoryM
deriving DecidableEq, Repr

/-- Import oracle: resolution of a dotted reference, `none` when the import
or the attribute lookup fails. -/
abbrev ImportOracle := String → Option Imported

/-- The `handler` argument accepted by `parse_handler`: a string (registry
name or dotted reference), a callable factory, or some other object. -/
inductive HandlerInput where
  | named (s : String)
  | factory (f : FactoryM)
  | otherInput
deriving Repr

/-- Embedding of `parse_handler` (handler.py lines 49-62). Returns the
callable-ness of the resolved object together with its factory behaviour.
For a string not in the registry, `rsplit(".", 1)` unpacking fails with
`ValueError` when the string has no dot, otherwise the import oracle is
consulted. For a callable input the code evaluates `input()` (whose
`TypeError` on wrong arity propagates uncaught) and checks the result
against the `Handler` protocol. -/
def parse_handler (reg : Registry) (imp : ImportOracle) :
    HandlerInput → Except PyErr (Bool × FactoryM)
  | .named s =>
    match regLookup reg s with
    | some e => Except.ok (true, e.handler)
    | none =>
      if s.toList.contains '.' then
        match imp s with
        | some i => Except.ok (i.isCallable, i.fac)
        | none => Except.error PyErr.importError
      else
        Except.error (PyErr.valueError "not enough values to unpack")
  | .factory f =>
    if f.arity_ok = false then Except.error (PyErr.typeError "factory call raised")
    else if f.result_is_handler then Except.ok (true, f)
    else Except.error (PyErr.typeError "Invalid handler")
  | .otherInput => Except.error (PyErr.typeError "Invalid handler")

/-- A validated `Node` (node.py): the dataclass stores `path = Path(self.path)`
(unexpanded, unresolved) and the resolved handler factory. -/
structure Node where
  path : PyPath
  handler : FactoryM
deriving DecidableEq, Repr

/-- Handler-related part of `Node.__post_init__` (node.py lines 35-46):
`parse_handler`, `assert callable(handler)`, the guarded zero-argument call
(re-raising `TypeError` with the zero-argument message), and
`assert isinstance(handler_inst, Handler)`. -/
def Node.handlerChecks (reg : Registry) (imp : ImportOracle) (path : PyPath)
    (h : HandlerInput) : Except PyErr Node :=
  match parse_handler reg imp h with
  | Except.error e => Except.error e
  | Except.ok (isCall, fac) =>
    if isCall = false then Except.error PyErr.assertionError
    else if fac.arity_ok = false then
      Except.error (PyErr.typeError "handler must be a zero-argument callable")
    else if fac.result_is_handler = false then Except.error PyErr.assertionError
    else Except.ok { path := path, handler := fac }

/-- Embedding of `Node.__post_init__` (node.py lines 20-46). Path checks
come first: an absolute path (after `expanduser`) only emits a warning (the
`raise` in the source is commented out); otherwise a resolved path that is
not under the current working directory raises
`ValueError("path should not include ..")`. Handler checks follow. Returns
the warnings emitted together with the constructed node or the exception. -/
def Node.construct (cwd home : APath) (reg : Registry) (imp : ImportOracle)
    (path : PyPath) (h : HandlerInput) : List PyWarn × Except PyErr Node :=
  if (expanduser home path).absolute then
    ([PyWarn.absolutePath], Node.handlerChecks reg imp path h)
  else if ¬ (List.isPrefixOf cwd (resolvePath cwd path)) then
    ([], Except.error (PyErr.valueError "path should not include .."))
  else
    ([], Node.handlerChecks reg imp path h)

/-- Inputs accepted by `to_node` (node.py line 69): a `Node`, a dict (string
keys and string values standing for paths or handler references), a `str`, a
`PathLike`, or anything else (identified by its type name). -/
inductive NInput where
  | nodeIn (n : Node)
  | dictIn (d : List (String × String))
  | strIn (s : String)
  | pathLikeIn (s : String)
  | otherIn (tyName : String)
deriving Repr

/-- Embedding of `dict_to_node` (node.py lines 49-51): `Node(**d)`. A key
other than `path`/`handler` is an unexpected keyword argument; a missing
`path` or `handler` is a missing required argument; otherwise
`Node.__post_init__` runs on the pair. -/
def dict_to_node (cwd home : APath) (reg : Registry) (imp : ImportOracle)
    (d : List (String × String)) : List PyWarn × Except PyErr Node :=
  if ¬ d.all (fun kv => kv.1 = "path" || kv.1 = "handler") then
    ([], Except.error (PyErr.typeError "unexpected keyword argument"))
  else
    match d.lookup "path", d.lookup "handler" with
    | some p, some h => Node.construct cwd home reg imp (parsePyStr p) (HandlerInput.named h)
    | none, _ => ([], Except.error (PyErr.typeError "missing required argument path"))
    | _, none => ([], Except.error (PyErr.typeError "missing required argument handler"))

/-- The argument given to the transform returned by `path_to_node`: either a
dict (the `{"path": path}` form) or a bare path string. -/
inductive PathArg where
  | fromDict (d : List (String × String))
  | fromStr (s : String)
deriving Repr

/-- Construction step shared by the `path_to_node` transform once the path
string is in hand: `Node(path=path, handler=handler or
infer_handler_from_path(path))` — the fixed handler when one was given,
extension inference otherwise. Warnings from inference and from node
construction accumulate. -/
def pathToNodeBuild (cwd home : APath) (reg : Registry) (imp : ImportOracle)
    (fixed : Option HandlerInput) (pstr : String) : List PyWarn × Except PyErr Node :=
  let p := parsePyStr pstr
  match fixed with
  | some h => Node.construct cwd home reg imp p h
  | none =>
    match infer_handler_from_path reg p with
    | (ws, Except.error e) => (ws, Except.error e)
    | (ws, Except.ok fac) =>
      let r := Node.construct cwd home reg imp p (HandlerInput.factory fac)
      (ws ++ r.1, r.2)

/-- Embedding of the transform returned by `path_to_node(handler)` (node.py
lines 54-66): a dict argument is looked up at key `"path"` (Python
`path["path"]`, raising `KeyError` when absent), then the node is built. -/
def path_to_node (cwd home : APath) (reg : Registry) (imp : ImportOracle)
    (fixed : Option HandlerInput) : PathArg → List PyWarn × Except PyErr Node
  | .fromDict d =>
    match d.lookup "path" with
    | none => ([], Except.error (PyErr.keyError "path"))
    | some pstr => pathToNodeBuild cwd home reg imp fixed pstr
  | .fromStr s => pathToNodeBuild cwd home reg imp fixed s

/-- Embedding of `to_node` (node.py lines 69-80), following the branch order
of the source: an existing `Node` passes through; a dict containing a
`handler` key goes to `dict_to_node`; a `str`/`PathLike`, or a dict without
a `handler` key, goes through the `path_to_node()` transform; anything else
raises the `TypeError` naming the received type. -/
def to_node (cwd home : APath) (reg : Registry) (imp : ImportOracle) :
    NInput → List PyWarn × Except PyErr Node
  | .nodeIn n => ([], Except.ok n)
  | .dictIn d =>
    if (d.lookup "handler").isSome then dict_to_node cwd home reg imp d
    else path_to_node cwd home reg imp none (PathArg.fromDict d)
  | .strIn s => path_to_node cwd home reg imp none (PathArg.fromStr s)
  | .pathLikeIn s => path_to_node cwd home reg imp none (PathArg.fromStr s)
  | .otherIn ty => ([], Except.error (PyErr.unsupportedInput ty))

/-- Embedding of `_str_is_json` (config.py lines 211-216), with the JSON
library as an oracle `jsonParse` (so `json.loads` succeeding is
`(jsonParse s).isSome`). `δ` is the type of parsed JSON documents. -/
def str_is_json {δ : Type} (jsonParse : String → Option δ) (s : String) : Bool :=
  (jsonParse s).isSome

/-- Embedding of `_str_is_path` (config.py lines 219-224):
`path.exists() or path.is_absolute() or path.is_relative_to(Path.cwd())`,
with filesystem existence as the oracle `fsExists`. `is_relative_to` is the
purely lexical `pathlib` check: an absolute `cwd` is a prefix of the path. -/
def str_is_path (fsExists : String → Bool) (cwd : APath) (s : String) : Bool :=
  let p := parsePyStr s
  fsExists s || p.absolute || (p.absolute && List.isPrefixOf cwd p.segs)

/-- The `spec` argument accepted by `make_metaconfig`: a dict (of parsed
type `δ`), a `str`, a `PathLike`, or anything else. -/
inductive SpecArg (δ : Type) where
  | dictArg (d : δ)
  | strArg (s : String)
  | pathLikeArg (s : String)
  | otherArg (tyName : String)

/-- How `make_metaconfig` proceeds: build from the dict given, build from
the dict obtained by `json.loads` of the string, open the named file and
build from its contents, or raise `TypeError`. -/
inductive MkOutcome (δ : Type) where
  | fromDict (d : δ)
  | fromJsonStr (d : δ)
  | fromFile (s : String)
  | typeErrorOut (tyName : String)
deriving DecidableEq

/-- Embedding of the input classification of `make_metaconfig` (config.py
lines 227-255): dict input is used directly; string input is inline JSON
when `_str_is_json` holds, else a filesystem path when `PathLike` or
`_str_is_path`; anything else raises `TypeError`. -/
def make_metaconfig {δ : Type} (jsonParse : String → Option δ)
    (fsExists : String → Bool) (cwd : APath) : SpecArg δ → MkOutcome δ
  | .dictArg d => MkOutcome.fromDict d
  | .strArg s =>
    match jsonParse s with
    | some d => MkOutcome.fromJsonStr d
    | none =>
      if str_is_path fsExists cwd s then MkOutcome.fromFile s
      else MkOutcome.typeErrorOut "str"
  | .pathLikeArg s => MkOutcome.fromFile s
  | .otherArg ty => MkOutcome.typeErrorOut ty

/-- For the `nodes` iterator: a field's `Node` together with what its
handler factory instantiates to — `sub = some fields` when the instantiated
handler is itself a `MetaConfig` (with those fields), `none` when it is a
plain handler. -/
inductive CfgNode where
  | mk (path : String) (sub : Option (List (String × CfgNode)))

/-- Embedding of `MetaConfig.nodes` (config.py lines 86-104) over a field
list: each field's node is yielded; when `recurse` is set and the field's
instantiated handler is a `MetaConfig`, the source does
`yield from handler.nodes()` — with `recurse` left at its default `False`,
so the nested call never descends further. -/
def nodesIter : Bool → List (String × CfgNode) → List CfgNode
  | _, [] => []
  | recurse, (_, n) :: rest =>
    n ::
      ((if recurse then
          (match n with
            | CfgNode.mk _ (some sub) => nodesIter false sub
            | CfgNode.mk _ none => [])
        else []) ++ nodesIter recurse rest)
termination_by _ l => sizeOf l
decreasing_by
  all_goals simp_wf
  all_goals omega

/-- Modelled from the spec: the traversal the specification describes for
`nodes(recurse=True)`, which recurses into nested configurations at every
depth (the nested call keeps `recurse` set). -/
def nodesSpecIter : Bool → List (String × CfgNode) → List CfgNode
  | _, [] => []
  | recurse, (_, n) :: rest =>
    n ::
      ((if recurse then
          (match n with
            | CfgNode.mk _ (some sub) => nodesSpecIter recurse sub
            | CfgNode.mk _ none => [])
        else []) ++ nodesSpecIter recurse rest)
termination_by _ l => sizeOf l
decreasing_by
  all_goals simp_wf
  all_goals omega

/-- The immediate child nodes of a field's node: the nodes of the nested
configuration its handler instantiates to, if any. -/
def directChildren : CfgNode → List CfgNode
  | CfgNode.mk _ none => []
  | CfgNode.mk _ (some sub) => sub.map (fun kv => kv.2)

/-- Filesystem state: the set of existing directories and the files with
their contents, keyed by absolute resolved path. -/
structure Fs where
  dirs : List APath
  files : List (APath × Val)
deriving DecidableEq, Repr

/-- Process state: the current working directory plus the filesystem. -/
structure Sys where
  cwd : APath
  fs : Fs
deriving DecidableEq, Repr

/-- Whether a path exists on the filesystem (`Path.exists()`). -/
def existsFs (fs : Fs) (p : APath) : Bool :=
  decide (p ∈ fs.dirs) || decide (p ∈ fs.files.map Prod.fst)

/-- Whether a path is an existing directory (`Path.is_dir()`). -/
def isDirFs (fs : Fs) (p : APath) : Bool :=
  decide (p ∈ fs.dirs)

/-- Runtime behaviour of an instantiated handler, the external collaborator
behind the `Handler` protocol: `read` maps an absolute resolved path and the
filesystem to a value or an exception; `write` maps a path, a value and the
`overwrite_ok` flag to the new filesystem or an exception. -/
structure HandlerM where
  hread : APath → Fs → Except PyErr Val
  hwrite : APath → Val → Bool → Fs → Except PyErr Fs

/-- A field of a runtime `MetaConfig`: the node's validated relative path
(as segments) and what its zero-argument handler factory instantiates to.
The factory was validated at node construction, so instantiation succeeds
and is deterministic. -/
structure NodeR where
  path : List String
  handler : HandlerM

/-- A runtime `MetaConfig` instance: its dataclass fields in declaration
order, each holding a `Node`. -/
structure MetaConfig where
  fields : List (String × NodeR)

/-- The loop body of `MetaConfig.read` (config.py lines 49-54): for each
field in declaration order, instantiate the handler and call
`handler.read(config.path)`; inside `switch_dir` the relative node path is
resolved against the root directory (the working directory of the block). A
raised exception propagates and discards the partial dict. -/
def readFieldsLoop (cwd : APath) (fs : Fs) :
    List (String × NodeR) → Except PyErr (List (String × Val))
  | [] => Except.ok []
  | (nm, nd) :: rest =>
    match nd.handler.hread (resolveSegs cwd nd.path) fs with
    | Except.error e => Except.error e
    | Except.ok v =>
      match readFieldsLoop cwd fs rest with
      | Except.error e => Except.error e
      | Except.ok tl => Except.ok ((nm, v) :: tl)

/-- Embedding of `MetaConfig.read` (config.py lines 37-56) together with
`switch_dir` (utils.py lines 11-31). `switch_dir.__init__` raises
`NotADirectoryError` when the path exists but is not a directory and
`FileNotFoundError` when it does not exist, before any field is visited;
`__enter__` changes the working directory and `__exit__` restores the saved
one on every exit path, normal or exceptional. -/
def MetaConfig.read (cfg : MetaConfig) (path : PyPath) (s : Sys) :
    Except PyErr (List (String × Val)) × Sys :=
  let rootAbs := resolvePath s.cwd path
  if isDirFs s.fs rootAbs then
    let entered : Sys := { s with cwd := rootAbs }
    let res := readFieldsLoop entered.cwd entered.fs cfg.fields
    let exited : Sys := { entered with cwd := s.cwd }
    (res, exited)
  else if existsFs s.fs rootAbs then
    (Except.error PyErr.notADirectory, s)
  else
    (Except.error PyErr.fileNotFound, s)

/-- The loop body of `MetaConfig.write` (config.py lines 79-84): for each
field in declaration order, look up `data[field.name]` (raising `KeyError`
when absent) and call `handler.write(config.path, data[field.name],
overwrite_ok=overwrite_ok)`. On an exception the fields already written stay
written: the filesystem at the point of failure is returned. -/
def writeFieldsLoop (cwd : APath) (data : List (String × Val)) (ow : Bool) :
    List (String × NodeR) → Fs → Option PyErr × Fs
  | [], fs => (none, fs)
  | (nm, nd) :: rest, fs =>
    match data.lookup nm with
    | none => (some (PyErr.keyError nm), fs)
    | some v =>
      match nd.handler.hwrite (resolveSegs cwd nd.path) v ow fs with
      | Except.error e => (some e, fs)
      | Except.ok fs2 => writeFieldsLoop cwd data ow rest fs2

/-- Whether a proper prefix of the path exists as a file — the state in
which the OS, walking the parent chain during `mkdir`, hits a non-directory
component and fails with `ENOTDIR`. -/
def prefixFileConflict (fs : Fs) (p : APath) : Bool :=
  p.inits.any (fun q => q != p && decide (q ∈ fs.files.map Prod.fst))

/-- Embedding of `path.mkdir(parents=True)` (with the default
`exist_ok=False`): fails with `NotADirectoryError` when a proper prefix of
the target exists as a file, with `FileExistsError` when the target itself
already exists, and otherwise creates the target directory together with
every missing parent (every prefix of the path becomes a directory). -/
def mkdirParents (fs : Fs) (p : APath) : Except PyErr Fs :=
  if prefixFileConflict fs p then Except.error PyErr.notADirectory
  else if existsFs fs p then Except.error PyErr.fileExists
  else Except.ok { fs with dirs := fs.dirs ++ p.inits }

/-- Embedding of `MetaConfig.write` (config.py lines 58-84) together with
`switch_dir`. When the root is not an existing directory it is created with
`mkdir(parents=True)` — which raises `FileExistsError` when the root exists
as a non-directory and `NotADirectoryError` when a proper prefix of it
exists as a file. Then, inside the `switch_dir` block, the fields are
written in declaration order; `__exit__` restores the working directory on
every exit path. -/
def MetaConfig.write (cfg : MetaConfig) (path : PyPath)
    (data : List (String × Val)) (overwrite_ok : Bool) (s : Sys) :
    Except PyErr Unit × Sys :=
  let rootAbs := resolvePath s.cwd path
  if isDirFs s.fs rootAbs then
    let entered : Sys := { s with cwd := rootAbs }
    let r := writeFieldsLoop entered.cwd data overwrite_ok cfg.fields entered.fs
    let exited : Sys := { cwd := s.cwd, fs := r.2 }
    ((match r.1 with | none => Except.ok () | some e => Except.error e), exited)
  else
    match mkdirParents s.fs rootAbs with
    | Except.error e => (Except.error e, s)
    | Except.ok fs1 =>
      let entered : Sys := { cwd := rootAbs, fs := fs1 }
      let r := writeFieldsLoop entered.cwd data overwrite_ok cfg.fields entered.fs
      let exited : Sys := { cwd := s.cwd, fs := r.2 }
      ((match r.1 with | none => Except.ok () | some e => Except.error e), exited)

/-- Update-or-insert of a file entry, used by the plain-store handler. -/
def setFile : List (APath × Val) → APath → Val → List (APath × Val)
  | [], p, v => [(p, v)]
  | (q, w) :: rest, p, v =>
    if q = p then (q, v) :: rest else (q, w) :: setFile rest p v

/-- A plain store handler: `read` returns the file's contents and `write`
stores the value at the path, refusing to overwrite an existing file when
`overwrite_ok` is false. It satisfies the handler contract of the spec and
is round-trip faithful. -/
def stdHandler : HandlerM :=
  { hread := fun p fs =>
      match fs.files.lookup p with
      | some v => Except.ok v
      | none => Except.error PyErr.fileNotFound
    hwrite := fun p v ow fs =>
      if ow = false ∧ (fs.files.lookup p).isSome then Except.error PyErr.fileExists
      else Except.ok { fs with files := setFile fs.files p v } }

/-- Example configuration with two nesting levels: field `x` holds a
directory whose handler instantiates to a nested configuration, whose field
`y` again holds a configuration with one field `z`. -/
def deepExample : List (String × CfgNode) :=
  [("x", CfgNode.mk "d1" (some [("y", CfgNode.mk "d2" (some [("z", CfgNode.mk "f" none)]))]))]

/-- Example runtime configuration: two fields with distinct paths, both
handled by the plain store handler. -/
def twoFieldCfg : MetaConfig :=
  { fields :=
      [("f1", { path := ["a1.txt"], handler := stdHandler }),
       ("f2", { path := ["a2.txt"], handler := stdHandler })] }

/-- Example runtime configuration: two fields sharing one path, both handled
by the plain store handler. -/
def sharedPathCfg : MetaConfig :=
  { fields :=
      [("f1", { path := ["a.txt"], handler := stdHandler }),
       ("f2", { path := ["a.txt"], handler := stdHandler })] }

/-! Helper lemmas about association-list lookup. -/

/-- A successful lookup pinpoints a member of the list. -/
theorem lookup_some_mem {α β : Type} [BEq α] [LawfulBEq α] (l : List (α × β)) (a : α)
    (b : β) (h : l.lookup a = some b) : (a, b) ∈ l := by
  induction l with
  | nil => simp [List.lookup] at h
  | cons hd tl ih =>
    obtain ⟨k, v⟩ := hd
    by_cases hk : a == k
    · have hak : a = k := eq_of_beq hk
      subst hak
      simp [List.lookup] at h
      subst h
      exact List.mem_cons_self _ _
    · simp only [List.lookup, Bool.not_eq_true] at hk h
      rw [hk] at h
      exact List.mem_cons_of_mem _ (ih h)

/-- A key occurring among the first components makes lookup succeed. -/
theorem lookup_isSome_of_mem_keys {α β : Type} [BEq α] [LawfulBEq α]
    (l : List (α × β)) (a : α) (h : a ∈ l.map Prod.fst) : (l.lookup a).isSome = true := by
  induction l with
  | nil => simp at h
  | cons hd tl ih =>
    obtain ⟨k, v⟩ := hd
    by_cases hk : a == k
    · simp [List.lookup, hk]
    · simp only [List.lookup, hk]
      simp only [List.map_cons, List.mem_cons] at h
      rcases h with h | h
      · exact absurd (beq_iff_eq.mpr h) (by simpa using hk)
      · exact ih h

end Metaconf

namespace Metaconf

/-! Theorems settling the claims. -/

/-- C3 counterexample: a node constructed with the absolute path
`/etc/conf.yaml` and a valid factory. The claim says construction fails
fatally and no Node is produced; the code only emits the absolute-path
warning and returns the Node. -/
theorem C3_counterexample :
    Node.construct ["home", "user"] ["home", "user"] [] (fun _ => none)
        { absolute := true, segs := ["etc", "conf.yaml"] }
        (HandlerInput.factory { arity_ok := true, result_is_handler := true, tag := 0 }) =
      ([PyWarn.absolutePath],
        Except.ok
          { path := { absolute := true, segs := ["etc", "conf.yaml"] },
            handler := { arity_ok := true, result_is_handler := true, tag := 0 } }) := rfl

/-- C3 (amended): for every absolute path argument (after user expansion),
Node construction emits the absolute-path warning and, given a factory that
is zero-argument callable and produces a Handler, succeeds and returns the
Node — the warn-rather-than-reject policy is active, so no
PathValidationError-class fault is raised for absolute paths. -/
theorem C3_absolute_path_warns (cwd home : APath) (reg : Registry)
    (imp : ImportOracle) (p : PyPath) (f : FactoryM)
    (habs : (expanduser home p).absolute = true)
    (h1 : f.arity_ok = true) (h2 : f.result_is_handler = true) :
    Node.construct cwd home reg imp p (HandlerInput.factory f) =
      ([PyWarn.absolutePath], Except.ok { path := p, handler := f }) := by
  simp [Node.construct, habs, Node.handlerChecks, parse_handler, h1, h2]

/-- C3 witness: the amended theorem applied to the absolute path `/a`. -/
theorem C3_witness :
    Node.construct [] [] [] (fun _ => none) { absolute := true, segs := ["a"] }
        (HandlerInput.factory { arity_ok := true, result_is_handler := true, tag := 5 }) =
      ([PyWarn.absolutePath],
        Except.ok
          { path := { absolute := true, segs := ["a"] },
            handler := { arity_ok := true, result_is_handler := true, tag := 5 } }) :=
  C3_absolute_path_warns [] [] [] (fun _ => none) _ _ rfl rfl rfl

/-- C4 counterexample: the absolute path `/x/..` contains a `..` segment and
its resolution (the filesystem root) escapes the working directory
`/home/user`, yet Node construction succeeds (with only a warning), because
the escape check sits in the `elif` branch that absolute paths never reach. -/
theorem C4_counterexample :
    (PyPath.segs { absolute := true, segs := ["x", ".."] }).contains ".." = true ∧
    List.isPrefixOf ["home", "user"]
        (resolvePath ["home", "user"] { absolute := true, segs := ["x", ".."] }) = false ∧
    (Node.construct ["home", "user"] ["home", "user"] [] (fun _ => none)
        { absolute := true, segs := ["x", ".."] }
        (HandlerInput.factory { arity_ok := true, result_is_handler := true, tag := 1 })).2 =
      Except.ok
        { path := { absolute := true, segs := ["x", ".."] },
          handler := { arity_ok := true, result_is_handler := true, tag := 1 } } :=
  ⟨rfl, rfl, rfl⟩

/-- C4 (amended): for every path that is relative (after user expansion) and
whose resolution against the current working directory escapes it, Node
construction fails with `ValueError` (the PathValidationError-class fault)
and no Node is produced; for absolute escaping paths the leniency policy of
C3 applies instead. -/
theorem C4_escaping_relative_path_rejected (cwd home : APath) (reg : Registry)
    (imp : ImportOracle) (p : PyPath) (h : HandlerInput)
    (hrel : (expanduser home p).absolute = false)
    (hesc : List.isPrefixOf cwd (resolvePath cwd p) = false) :
    Node.construct cwd home reg imp p h =
      ([], Except.error (PyErr.valueError "path should not include ..")) := by
  simp [Node.construct, hrel, hesc]

/-- C4 witness: the amended theorem applied to the relative path `../..`
under working directory `/home`. -/
theorem C4_witness :
    Node.construct ["home"] ["home"] [] (fun _ => none)
        { absolute := false, segs := ["..", ".."] } HandlerInput.otherInput =
      ([], Except.error (PyErr.valueError "path should not include ..")) :=
  C4_escaping_relative_path_rejected ["home"] ["home"] [] (fun _ => none) _ _ rfl rfl

/-- C5: string input to the schema builder is classified as inline JSON
whenever it parses as JSON — regardless of whether it also names an existing
file — and only otherwise is it treated as a filesystem path to a JSON
document. -/
theorem C5_inline_json_priority {δ : Type} (jsonParse : String → Option δ)
    (fsExists : String → Bool) (cwd : APath) :
    (∀ s d, jsonParse s = some d →
        make_metaconfig jsonParse fsExists cwd (SpecArg.strArg s) = MkOutcome.fromJsonStr d) ∧
    (∀ s, jsonParse s = none → str_is_path fsExists cwd s = true →
        make_metaconfig jsonParse fsExists cwd (SpecArg.strArg s) = MkOutcome.fromFile s) := by
  constructor
  · intro s d hj
    simp [make_metaconfig, hj]
  · intro s hj hp
    simp [make_metaconfig, hj, hp]

/-- C5 witness: with a JSON oracle accepting exactly `"1"` and a filesystem
on which every string names an existing file (so `"1"` is ambiguous), the
string `"1"` is classified as inline JSON and the non-JSON string `"x"` as a
file path. -/
theorem C5_witness :
    make_metaconfig (fun s => if s = "1" then some 1 else none) (fun _ => true) []
        (SpecArg.strArg "1") = MkOutcome.fromJsonStr 1 ∧
    make_metaconfig (fun s => if s = "1" then some 1 else none) (fun _ => true) []
        (SpecArg.strArg "x") = MkOutcome.fromFile "x" :=
  ⟨(C5_inline_json_priority (fun s => if s = "1" then some 1 else none) (fun _ => true) []).1
      "1" 1 rfl,
    (C5_inline_json_priority (fun s => if s = "1" then some 1 else none) (fun _ => true) []).2
      "x" rfl rfl⟩

/-- C6 counterexample: register `a` then `b` for `.txt`, then re-register
`a` (the most recent registration, still matching `.txt`). The registry
keeps `a` in its original position, so extension resolution returns `b`'s
factory — not the most-recently-registered matching one. -/
theorem C6_counterexample :
    (register_handler
        (register_handler
          (register_handler [] (PyVal.str "a")
            { arity_ok := true, result_is_handler := true, tag := 1 } [PyVal.str ".txt"]).1
          (PyVal.str "b")
          { arity_ok := true, result_is_handler := true, tag := 2 } [PyVal.str ".txt"]).1
        (PyVal.str "a")
        { arity_ok := true, result_is_handler := true, tag := 3 } [PyVal.str ".txt"]).1 =
      [("a", { handler := { arity_ok := true, result_is_handler := true, tag := 3 },
               extensions := [".txt"] }),
       ("b", { handler := { arity_ok := true, result_is_handler := true, tag := 2 },
               extensions := [".txt"] })] ∧
    (infer_handler_from_path
        [("a", { handler := { arity_ok := true, result_is_handler := true, tag := 3 },
                 extensions := [".txt"] }),
         ("b", { handler := { arity_ok := true, result_is_handler := true, tag := 2 },
                 extensions := [".txt"] })]
        { absolute := false, segs := ["x.txt"] }).2 =
      Except.ok { arity_ok := true, result_is_handler := true, tag := 2 } ∧
    ({ arity_ok := true, result_is_handler := true, tag := 2 } : FactoryM) ≠
      { arity_ok := true, result_is_handler := true, tag := 3 } :=
  ⟨by decide, rfl, by decide⟩

/-- C6 (amended): extension resolution deterministically returns the
matching entry that occupies the *latest position in the registry's
insertion order* (which coincides with the most-recently-registered one only
when no matching name was later re-registered), emits an ambiguity warning
exactly when more than one entry matches, and fails with the
no-handler-for-extension error when none matches. -/
theorem C6_last_matching_entry (reg : Registry) (p : PyPath) :
    (reg.filter (fun kv => kv.2.extensions.contains (pySuffix (lastSeg p))) = [] →
      infer_handler_from_path reg p =
        ([], Except.error
          (PyErr.exceptionMsg "No handler found for extension in the handler registry."))) ∧
    (∀ pre x,
      reg.filter (fun kv => kv.2.extensions.contains (pySuffix (lastSeg p))) = pre ++ [x] →
      infer_handler_from_path reg p =
        ((if pre = [] then [] else [PyWarn.ambiguousExtension (pySuffix (lastSeg p))]),
          Except.ok x.2.handler)) := by
  constructor
  · intro hfil
    simp only [infer_handler_from_path]
    rw [hfil]
    rfl
  · intro pre x hfil
    cases pre with
    | nil =>
      simp only [infer_handler_from_path]
      rw [hfil, List.getLast?_concat]
      simp
    | cons a l =>
      have hlen : 1 < ((a :: l) ++ [x]).length := by
        simp
      simp only [infer_handler_from_path]
      rw [hfil, List.getLast?_concat]
      simp [hlen]

/-- C6 witness: with two registered handlers both matching `.txt`, the
amended theorem applied to `x.txt` yields the later entry's factory together
with the ambiguity warning. -/
theorem C6_witness :
    infer_handler_from_path
        [("a", { handler := { arity_ok := true, result_is_handler := true, tag := 1 },
                 extensions := [".txt"] }),
         ("b", { handler := { arity_ok := true, result_is_handler := true, tag := 2 },
                 extensions := [".txt"] })]
        { absolute := false, segs := ["x.txt"] } =
      ([PyWarn.ambiguousExtension ".txt"],
        Except.ok { arity_ok := true, result_is_handler := true, tag := 2 }) :=
  (C6_last_matching_entry
      [("a", { handler := { arity_ok := true, result_is_handler := true, tag := 1 },
               extensions := [".txt"] }),
       ("b", { handler := { arity_ok := true, result_is_handler := true, tag := 2 },
               extensions := [".txt"] })]
      { absolute := false, segs := ["x.txt"] }).2
    [("a", { handler := { arity_ok := true, result_is_handler := true, tag := 1 },
             extensions := [".txt"] })]
    ("b", { handler := { arity_ok := true, result_is_handler := true, tag := 2 },
            extensions := [".txt"] })
    rfl

/-- Without `recurse`, the iterator yields exactly the fields' nodes in
declaration order. -/
theorem nodesIter_false_eq (l : List (String × CfgNode)) :
    nodesIter false l = l.map (fun kv => kv.2) := by
  induction l with
  | nil => simp [nodesIter]
  | cons hd tl ih =>
    obtain ⟨nm, n⟩ := hd
    rw [nodesIter.eq_def]
    simp [ih]

/-- C2 counterexample: on the two-level nested configuration `deepExample`,
`nodes(recurse=True)` yields two nodes (`x`'s and `y`'s) but not the
deepest node `z`, because the recursive call `handler.nodes()` leaves
`recurse` at its default `False`; the traversal the claim describes
(recursive at every depth) yields three. -/
theorem C2_counterexample :
    (nodesIter true deepExample).length = 2 ∧
    (nodesSpecIter true deepExample).length = 3 ∧
    nodesIter true deepExample ≠ nodesSpecIter true deepExample := by
  have e1 : nodesIter true deepExample =
      [CfgNode.mk "d1" (some [("y", CfgNode.mk "d2" (some [("z", CfgNode.mk "f" none)]))]),
       CfgNode.mk "d2" (some [("z", CfgNode.mk "f" none)])] := by
    simp [deepExample, nodesIter.eq_def]
  have e2 : nodesSpecIter true deepExample =
      [CfgNode.mk "d1" (some [("y", CfgNode.mk "d2" (some [("z", CfgNode.mk "f" none)]))]),
       CfgNode.mk "d2" (some [("z", CfgNode.mk "f" none)]),
       CfgNode.mk "f" none] := by
    simp [deepExample, nodesSpecIter.eq_def]
  refine ⟨by rw [e1]; rfl, by rw [e2]; rfl, ?_⟩
  rw [e1, e2]
  intro h
  have hlen := congrArg List.length h
  simp at hlen

/-- C2 (amended): `nodes(recurse=True)` yields each field's Node in
declaration order and, immediately after a field whose instantiated handler
is itself a Composite Configuration, that nested configuration's own field
Nodes — one nesting level only, since the recursive call leaves `recurse`
unset; in particular, with one field whose handler is a three-field nested
configuration it yields exactly four Nodes in depth-first order. -/
theorem C2_one_level :
    (∀ fields : List (String × CfgNode),
      nodesIter true fields =
        fields.foldr (fun kv acc => kv.2 :: (directChildren kv.2 ++ acc)) []) ∧
    nodesIter true
        [("top", CfgNode.mk "d"
          (some [("a", CfgNode.mk "fa" none), ("b", CfgNode.mk "fb" none),
                 ("c", CfgNode.mk "fc" none)]))] =
      [CfgNode.mk "d"
          (some [("a", CfgNode.mk "fa" none), ("b", CfgNode.mk "fb" none),
                 ("c", CfgNode.mk "fc" none)]),
       CfgNode.mk "fa" none, CfgNode.mk "fb" none, CfgNode.mk "fc" none] := by
  have hgen : ∀ fields : List (String × CfgNode),
      nodesIter true fields =
        fields.foldr (fun kv acc => kv.2 :: (directChildren kv.2 ++ acc)) [] := by
    intro fields
    induction fields with
    | nil => simp [nodesIter]
    | cons hd tl ih =>
      obtain ⟨nm, n⟩ := hd
      cases n with
      | mk p sub =>
        cases sub with
        | none =>
          rw [nodesIter.eq_def]
          simp [ih, directChildren]
        | some sub2 =>
          rw [nodesIter.eq_def]
          simp [ih, directChildren, nodesIter_false_eq]
  refine ⟨hgen, ?_⟩
  rw [hgen]
  simp [directChildren]

/-- C7: a call to `register_handler` that raises any exception leaves the
registry exactly unchanged — every validation step precedes the single
mutation of the process-wide registry. -/
theorem C7_validate_before_mutate (reg : Registry) (name : PyVal)
    (handler : FactoryM) (extensions : List PyVal)
    (hfail : ((register_handler reg name handler extensions).2.2).isSome = true) :
    (register_handler reg name handler extensions).1 = reg := by
  cases name with
  | otherVal t => rfl
  | str s =>
    simp only [register_handler] at hfail ⊢
    split_ifs at hfail ⊢ <;> simp_all

/-- C7 witness: registering under a non-string name fails with
`AssertionError` and leaves the empty registry empty. -/
theorem C7_witness :
    ((register_handler [] (PyVal.otherVal "int")
        { arity_ok := true, result_is_handler := true, tag := 0 } []).2.2).isSome = true ∧
    (register_handler [] (PyVal.otherVal "int")
        { arity_ok := true, result_is_handler := true, tag := 0 } []).1 = [] :=
  ⟨rfl, C7_validate_before_mutate [] (PyVal.otherVal "int")
      { arity_ok := true, result_is_handler := true, tag := 0 } [] rfl⟩

/-- C8: both `read` and `write` leave the process working directory exactly
as it was, on every exit path — the `switch_dir` bracket restores the saved
directory whether the body returns or raises. -/
theorem C8_cwd_restored (cfg : MetaConfig) (path : PyPath)
    (data : List (String × Val)) (ow : Bool) (s : Sys) :
    ((MetaConfig.read cfg path s).2).cwd = s.cwd ∧
    ((MetaConfig.write cfg path data ow s).2).cwd = s.cwd := by
  constructor
  · simp only [MetaConfig.read]
    split_ifs <;> rfl
  · simp only [MetaConfig.write]
    split_ifs
    · rfl
    · cases mkdirParents s.fs (resolvePath s.cwd path) <;> rfl

/-- C9: when the root path does not exist, `read` fails with
`FileNotFoundError`, and when it exists but is not a directory, with
`NotADirectoryError`; the failure happens in `switch_dir.__init__`, before
any field's handler is instantiated or read, and the state is untouched. -/
theorem C9_read_missing_root (cfg : MetaConfig) (path : PyPath) (s : Sys)
    (hnd : isDirFs s.fs (resolvePath s.cwd path) = false) :
    MetaConfig.read cfg path s =
      ((if existsFs s.fs (resolvePath s.cwd path) then Except.error PyErr.notADirectory
        else Except.error PyErr.fileNotFound), s) := by
  simp only [MetaConfig.read, hnd, Bool.false_eq_true, if_false]
  split_ifs <;> rfl

/-- C9 witness: reading a one-field configuration from the nonexistent root
`root` on an empty filesystem returns `FileNotFoundError` with the state
unchanged. -/
theorem C9_witness :
    MetaConfig.read { fields := [("a", { path := ["a.txt"], handler := stdHandler })] }
        { absolute := false, segs := ["root"] } { cwd := [], fs := { dirs := [], files := [] } } =
      (Except.error PyErr.fileNotFound, { cwd := [], fs := { dirs := [], files := [] } }) :=
  C9_read_missing_root
    { fields := [("a", { path := ["a.txt"], handler := stdHandler })] }
    { absolute := false, segs := ["root"] } { cwd := [], fs := { dirs := [], files := [] } } rfl

/-- Resolution of a handler reference never produces the unsupported-input
TypeError reserved for `to_node`. -/
theorem parse_handler_no_unsup (reg : Registry) (imp : ImportOracle)
    (h : HandlerInput) (ty : String) :
    parse_handler reg imp h ≠ Except.error (PyErr.unsupportedInput ty) := by
  cases h with
  | named s =>
    simp only [parse_handler]
    split
    · simp
    · split_ifs
      · split <;> simp
      · simp
  | factory f =>
    simp only [parse_handler]
    split_ifs <;> simp
  | otherInput => simp [parse_handler]

/-- The handler-check part of Node construction never produces the
unsupported-input TypeError. -/
theorem handlerChecks_no_unsup (reg : Registry) (imp : ImportOracle)
    (p : PyPath) (h : HandlerInput) (ty : String) :
    Node.handlerChecks reg imp p h ≠ Except.error (PyErr.unsupportedInput ty) := by
  cases hp : parse_handler reg imp h with
  | error e =>
    simp only [Node.handlerChecks, hp]
    intro h2
    have he : e = PyErr.unsupportedInput ty := by injection h2
    exact parse_handler_no_unsup reg imp h ty (by rw [hp, he])
  | ok pr =>
    obtain ⟨isCall, fac⟩ := pr
    simp only [Node.handlerChecks, hp]
    split_ifs <;> simp

/-- Node construction never produces the unsupported-input TypeError. -/
theorem construct_no_unsup (cwd home : APath) (reg : Registry)
    (imp : ImportOracle) (p : PyPath) (h : HandlerInput) (ty : String) :
    (Node.construct cwd home reg imp p h).2 ≠
      Except.error (PyErr.unsupportedInput ty) := by
  simp only [Node.construct]
  split_ifs <;> first
    | exact handlerChecks_no_unsup reg imp p h ty
    | simp

/-- Extension inference never produces the unsupported-input TypeError. -/
theorem infer_no_unsup (reg : Registry) (p : PyPath) (ty : String) :
    (infer_handler_from_path reg p).2 ≠ Except.error (PyErr.unsupportedInput ty) := by
  simp only [infer_handler_from_path]
  split <;> simp

/-- Path-based node building never produces the unsupported-input TypeError. -/
theorem pathToNodeBuild_no_unsup (cwd home : APath) (reg : Registry)
    (imp : ImportOracle) (fixed : Option HandlerInput) (pstr : String) (ty : String) :
    (pathToNodeBuild cwd home reg imp fixed pstr).2 ≠
      Except.error (PyErr.unsupportedInput ty) := by
  simp only [pathToNodeBuild]
  cases fixed with
  | some h => exact construct_no_unsup cwd home reg imp (parsePyStr pstr) h ty
  | none =>
    cases hi : infer_handler_from_path reg (parsePyStr pstr) with
    | mk ws r =>
      cases r with
      | error e =>
        intro heq
        apply infer_no_unsup reg (parsePyStr pstr) ty
        rw [hi]
        simpa using heq
      | ok fac =>
        simp only
        exact construct_no_unsup cwd home reg imp (parsePyStr pstr)
          (HandlerInput.factory fac) ty

/-- The `path_to_node` transform never produces the unsupported-input
TypeError. -/
theorem path_to_node_no_unsup (cwd home : APath) (reg : Registry)
    (imp : ImportOracle) (fixed : Option HandlerInput) (arg : PathArg) (ty : String) :
    (path_to_node cwd home reg imp fixed arg).2 ≠
      Except.error (PyErr.unsupportedInput ty) := by
  cases arg with
  | fromDict d =>
    simp only [path_to_node]
    cases d.lookup "path" with
    | none => simp
    | some pstr => exact pathToNodeBuild_no_unsup cwd home reg imp fixed pstr ty
  | fromStr str0 => exact pathToNodeBuild_no_unsup cwd home reg imp fixed str0 ty

/-- The `dict_to_node` path never produces the unsupported-input TypeError. -/
theorem dict_to_node_no_unsup (cwd home : APath) (reg : Registry)
    (imp : ImportOracle) (d : List (String × String)) (ty : String) :
    (dict_to_node cwd home reg imp d).2 ≠
      Except.error (PyErr.unsupportedInput ty) := by
  simp only [dict_to_node]
  split_ifs
  · cases hp : List.lookup "path" d with
    | none => simp
    | some p =>
      cases hh : List.lookup "handler" d with
      | none => simp
      | some h0 =>
        exact construct_no_unsup cwd home reg imp (parsePyStr p) (HandlerInput.named h0) ty
  · simp

/-- C10: a dict carrying neither a `handler` nor a `path` key makes
`to_node` fail with `KeyError` for `"path"` (raised by the bare-path
transform), not with the unsupported-input TypeError; and that TypeError
(naming the received type) is produced exactly for inputs that are not a
Node, not a dict and not a str/PathLike. -/
theorem C10_to_node_errors :
    (∀ (cwd home : APath) (reg : Registry) (imp : ImportOracle)
        (d : List (String × String)),
        d.lookup "handler" = none → d.lookup "path" = none →
        to_node cwd home reg imp (NInput.dictIn d) =
          ([], Except.error (PyErr.keyError "path"))) ∧
    (∀ (cwd home : APath) (reg : Registry) (imp : ImportOracle) (inp : NInput)
        (ws : List PyWarn) (ty : String),
        to_node cwd home reg imp inp = (ws, Except.error (PyErr.unsupportedInput ty)) →
        inp = NInput.otherIn ty) := by
  constructor
  · intro cwd home reg imp d h1 h2
    simp [to_node, h1, path_to_node, h2]
  · intro cwd home reg imp inp ws ty heq
    cases inp with
    | nodeIn n => simp [to_node] at heq
    | dictIn d =>
      exfalso
      by_cases hh : (d.lookup "handler").isSome
      · apply dict_to_node_no_unsup cwd home reg imp d ty
        have : to_node cwd home reg imp (NInput.dictIn d) = dict_to_node cwd home reg imp d := by
          simp [to_node, hh]
        rw [this] at heq
        rw [heq]
      · apply path_to_node_no_unsup cwd home reg imp none (PathArg.fromDict d) ty
        have : to_node cwd home reg imp (NInput.dictIn d) =
            path_to_node cwd home reg imp none (PathArg.fromDict d) := by
          simp [to_node, hh]
        rw [this] at heq
        rw [heq]
    | strIn str0 =>
      exfalso
      apply path_to_node_no_unsup cwd home reg imp none (PathArg.fromStr str0) ty
      have : to_node cwd home reg imp (NInput.strIn str0) =
          path_to_node cwd home reg imp none (PathArg.fromStr str0) := by
        simp [to_node]
      rw [this] at heq
      rw [heq]
    | pathLikeIn str0 =>
      exfalso
      apply path_to_node_no_unsup cwd home reg imp none (PathArg.fromStr str0) ty
      have : to_node cwd home reg imp (NInput.pathLikeIn str0) =
          path_to_node cwd home reg imp none (PathArg.fromStr str0) := by
        simp [to_node]
      rw [this] at heq
      rw [heq]
    | otherIn t =>
      simp [to_node] at heq
      rw [heq.2]

/-- C10 witness: the theorem applied to the key-free dict and to a non-path
non-dict input. -/
theorem C10_witness :
    to_node [] [] [] (fun _ => none) (NInput.dictIn [("other", "v")]) =
      ([], Except.error (PyErr.keyError "path")) ∧
    NInput.otherIn "int" = NInput.otherIn "int" :=
  ⟨C10_to_node_errors.1 [] [] [] (fun _ => none) [("other", "v")] rfl rfl,
    C10_to_node_errors.2 [] [] [] (fun _ => none) (NInput.otherIn "int") [] "int" rfl⟩

/-! Lemmas for the write/read round trip. -/

/-- When every field has a datum and every write succeeds preserving the
directory set, the write loop succeeds and preserves the directory set. -/
theorem writeFieldsLoop_ok (cwd : APath) (data : List (String × Val)) :
    ∀ (l : List (String × NodeR)) (fs : Fs),
    (∀ x ∈ l, (data.lookup x.1).isSome = true) →
    (∀ x ∈ l, ∀ p v fs0, ∃ fs3,
        x.2.handler.hwrite p v true fs0 = Except.ok fs3 ∧ fs3.dirs = fs0.dirs) →
    ∃ fs2, writeFieldsLoop cwd data true l fs = (none, fs2) ∧ fs2.dirs = fs.dirs := by
  intro l
  induction l with
  | nil => exact fun fs _ _ => ⟨fs, rfl, rfl⟩
  | cons hd tl ih =>
    intro fs hk hw
    obtain ⟨nm, nd⟩ := hd
    obtain ⟨v, hv⟩ := Option.isSome_iff_exists.mp (hk (nm, nd) (List.mem_cons_self _ _))
    obtain ⟨fs1, hw1, hdir1⟩ :=
      hw (nm, nd) (List.mem_cons_self _ _) (resolveSegs cwd nd.path) v fs
    obtain ⟨fs2, hrun, hdir2⟩ := ih fs1 (fun x hx => hk x (List.mem_cons_of_mem _ hx))
        (fun x hx => hw x (List.mem_cons_of_mem _ hx))
    refine ⟨fs2, ?_, hdir2.trans hdir1⟩
    have hvx : data.lookup nm = some v := hv
    have hw1x : nd.handler.hwrite (resolveSegs cwd nd.path) v true fs = Except.ok fs1 := hw1
    simp [writeFieldsLoop, hvx, hw1x, hrun]

/-- Writes at paths other than `p` leave any handler's reading at `p`
unchanged across the whole write loop. -/
theorem writeFieldsLoop_frame (cwd : APath) (data : List (String × Val))
    (h : HandlerM) (p : APath) :
    ∀ (l : List (String × NodeR)) (fs fs2 : Fs),
    (∀ y ∈ l, resolveSegs cwd y.2.path ≠ p) →
    (∀ y ∈ l, ∀ q v fs0 fs1, p ≠ q →
        y.2.handler.hwrite q v true fs0 = Except.ok fs1 →
        h.hread p fs1 = h.hread p fs0) →
    writeFieldsLoop cwd data true l fs = (none, fs2) →
    h.hread p fs2 = h.hread p fs := by
  intro l
  induction l with
  | nil =>
    intro fs fs2 _ _ hrun
    simp only [writeFieldsLoop] at hrun
    have h2 : fs = fs2 := congrArg Prod.snd hrun
    rw [h2]
  | cons hd tl ih =>
    intro fs fs2 hdiff hfr hrun
    obtain ⟨nm, nd⟩ := hd
    cases hv : data.lookup nm with
    | none => simp [writeFieldsLoop, hv] at hrun
    | some v =>
      cases hw0 : nd.handler.hwrite (resolveSegs cwd nd.path) v true fs with
      | error e => simp [writeFieldsLoop, hv, hw0] at hrun
      | ok fs1 =>
        simp only [writeFieldsLoop, hv, hw0] at hrun
        have hstep : h.hread p fs1 = h.hread p fs :=
          hfr (nm, nd) (List.mem_cons_self _ _) (resolveSegs cwd nd.path) v fs fs1
            (Ne.symm (hdiff (nm, nd) (List.mem_cons_self _ _))) hw0
        have htail := ih fs1 fs2 (fun y hy => hdiff y (List.mem_cons_of_mem _ hy))
            (fun y hy => hfr y (List.mem_cons_of_mem _ hy)) hrun
        exact htail.trans hstep

/-- After a successful write loop over fields with pairwise-distinct
resolved paths, faithful writes and non-interfering handlers, reading each
field at its resolved path yields the datum that was written for it. -/
theorem writeFieldsLoop_readback (cwd : APath) (data : List (String × Val)) :
    ∀ (l : List (String × NodeR)) (fs fs2 : Fs),
    (∀ x ∈ l, (data.lookup x.1).isSome = true) →
    (∀ x ∈ l, ∀ p v fs0, ∃ fs3,
        x.2.handler.hwrite p v true fs0 = Except.ok fs3 ∧ fs3.dirs = fs0.dirs) →
    (∀ x ∈ l, ∀ p v fs0 fs1, x.2.handler.hwrite p v true fs0 = Except.ok fs1 →
        x.2.handler.hread p fs1 = Except.ok v) →
    (∀ x ∈ l, ∀ y ∈ l, ∀ p q v fs0 fs1, p ≠ q →
        y.2.handler.hwrite q v true fs0 = Except.ok fs1 →
        x.2.handler.hread p fs1 = x.2.handler.hread p fs0) →
    l.Pairwise (fun a b => resolveSegs cwd a.2.path ≠ resolveSegs cwd b.2.path) →
    writeFieldsLoop cwd data true l fs = (none, fs2) →
    ∀ x ∈ l, ∃ v, data.lookup x.1 = some v ∧
      x.2.handler.hread (resolveSegs cwd x.2.path) fs2 = Except.ok v := by
  intro l
  induction l with
  | nil =>
    intro fs fs2 _ _ _ _ _ _ x hx
    simp at hx
  | cons hd tl ih =>
    intro fs fs2 hk hw hfaith hfr hdist hrun x hx
    obtain ⟨nm, nd⟩ := hd
    obtain ⟨v, hv⟩ := Option.isSome_iff_exists.mp (hk (nm, nd) (List.mem_cons_self _ _))
    cases hw0 : nd.handler.hwrite (resolveSegs cwd nd.path) v true fs with
    | error e => simp [writeFieldsLoop, hv, hw0] at hrun
    | ok fs1 =>
      simp only [writeFieldsLoop, hv, hw0] at hrun
      rcases List.mem_cons.mp hx with hxe | hxtl
      · subst hxe
        refine ⟨v, hv, ?_⟩
        have h1 : nd.handler.hread (resolveSegs cwd nd.path) fs1 = Except.ok v :=
          hfaith (nm, nd) (List.mem_cons_self _ _) (resolveSegs cwd nd.path) v fs fs1 hw0
        have hdiff : ∀ y ∈ tl, resolveSegs cwd y.2.path ≠ resolveSegs cwd nd.path := by
          intro y hy
          exact Ne.symm ((List.pairwise_cons.mp hdist).1 y hy)
        have h2 : nd.handler.hread (resolveSegs cwd nd.path) fs2 =
            nd.handler.hread (resolveSegs cwd nd.path) fs1 :=
          writeFieldsLoop_frame cwd data nd.handler (resolveSegs cwd nd.path) tl fs1 fs2
            hdiff
            (fun y hy q v2 b0 b1 hpq hwq =>
              hfr (nm, nd) (List.mem_cons_self _ _) y (List.mem_cons_of_mem _ hy)
                (resolveSegs cwd nd.path) q v2 b0 b1 hpq hwq)
            hrun
        exact h2.trans h1
      · exact ih fs1 fs2 (fun a ha => hk a (List.mem_cons_of_mem _ ha))
          (fun a ha => hw a (List.mem_cons_of_mem _ ha))
          (fun a ha => hfaith a (List.mem_cons_of_mem _ ha))
          (fun a ha b hb => hfr a (List.mem_cons_of_mem _ ha) b (List.mem_cons_of_mem _ hb))
          (List.pairwise_cons.mp hdist).2 hrun x hxtl

/-- When every field's read succeeds with the datum stored for it, the read
loop succeeds, keyed exactly by the field names in order. -/
theorem readFieldsLoop_ok (cwd : APath) (fs : Fs) (data : List (String × Val)) :
    ∀ l : List (String × NodeR),
    (∀ x ∈ l, ∃ v, data.lookup x.1 = some v ∧
        x.2.handler.hread (resolveSegs cwd x.2.path) fs = Except.ok v) →
    ∃ out, readFieldsLoop cwd fs l = Except.ok out ∧
      out.map Prod.fst = l.map Prod.fst ∧ ∀ e ∈ out, data.lookup e.1 = some e.2 := by
  intro l
  induction l with
  | nil => exact fun _ => ⟨[], rfl, rfl, by simp⟩
  | cons hd tl ih =>
    intro hall
    obtain ⟨nm, nd⟩ := hd
    obtain ⟨v, hdv, hrd⟩ := hall (nm, nd) (List.mem_cons_self _ _)
    obtain ⟨out, ho, hkeys, hvals⟩ := ih (fun x hx => hall x (List.mem_cons_of_mem _ hx))
    refine ⟨(nm, v) :: out, ?_, by simp [hkeys], ?_⟩
    · have hrdx : nd.handler.hread (resolveSegs cwd nd.path) fs = Except.ok v := hrd
      simp [readFieldsLoop, hrdx, ho]
    · intro e he
      rcases List.mem_cons.mp he with he1 | he2
      · subst he1
        exact hdv
      · exact hvals e he2

/-- A result list whose entries all agree with the data mapping, and whose
keys cover every key of the data mapping, is equal to it as a mapping. -/
theorem lookup_agrees (out data : List (String × Val))
    (h1 : ∀ e ∈ out, data.lookup e.1 = some e.2)
    (h2 : ∀ nm, (data.lookup nm).isSome = true → nm ∈ out.map Prod.fst) :
    ∀ nm, out.lookup nm = data.lookup nm := by
  intro nm
  cases ho : out.lookup nm with
  | some v => exact (h1 (nm, v) (lookup_some_mem out nm v ho)).symm
  | none =>
    cases hdt : data.lookup nm with
    | none => rfl
    | some v =>
      exfalso
      have hm := h2 nm (by rw [hdt]; rfl)
      have hs := lookup_isSome_of_mem_keys out nm hm
      rw [ho] at hs
      simp at hs

/-! Lemmas about the plain store handler. -/

/-- Updating a file then looking it up returns the stored value. -/
theorem setFile_lookup_self (l : List (APath × Val)) (p : APath) (v : Val) :
    (setFile l p v).lookup p = some v := by
  induction l with
  | nil => simp [setFile, List.lookup]
  | cons hd tl ih =>
    obtain ⟨q, w⟩ := hd
    by_cases hqp : q = p
    · subst hqp
      simp [setFile, List.lookup]
    · have hb : (p == q) = false := beq_eq_false_iff_ne.mpr (fun he => hqp he.symm)
      simp [setFile, List.lookup, hqp, hb, ih]

/-- Updating a file leaves lookups at other paths unchanged. -/
theorem setFile_lookup_ne (l : List (APath × Val)) (p : APath) (v : Val)
    (r : APath) (hne : r ≠ p) : (setFile l p v).lookup r = l.lookup r := by
  induction l with
  | nil =>
    have hb : (r == p) = false := beq_eq_false_iff_ne.mpr hne
    simp [setFile, List.lookup, hb]
  | cons hd tl ih =>
    obtain ⟨q, w⟩ := hd
    by_cases hqp : q = p
    · subst hqp
      have hb : (r == q) = false := beq_eq_false_iff_ne.mpr hne
      simp [setFile, List.lookup, hb]
    · by_cases hrq : r = q
      · subst hrq
        simp [setFile, List.lookup, hqp]
      · have hb : (r == q) = false := beq_eq_false_iff_ne.mpr hrq
        simp [setFile, List.lookup, hqp, hb, ih]

/-- The plain store handler accepts every write under `overwrite_ok=True`. -/
theorem stdHandler_write_ok (p : APath) (v : Val) (fs : Fs) :
    stdHandler.hwrite p v true fs =
      Except.ok { fs with files := setFile fs.files p v } := by
  simp [stdHandler]

/-- The plain store handler reads back what it wrote. -/
theorem stdHandler_faithful (p : APath) (v : Val) (fs0 fs1 : Fs)
    (h : stdHandler.hwrite p v true fs0 = Except.ok fs1) :
    stdHandler.hread p fs1 = Except.ok v := by
  rw [stdHandler_write_ok] at h
  injection h with h2
  subst h2
  simp [stdHandler, setFile_lookup_self]

/-- A plain-store write at another path does not change what the plain
store handler reads at `p`. -/
theorem stdHandler_frame (p q : APath) (v : Val) (fs0 fs1 : Fs) (hne : p ≠ q)
    (h : stdHandler.hwrite q v true fs0 = Except.ok fs1) :
    stdHandler.hread p fs1 = stdHandler.hread p fs0 := by
  rw [stdHandler_write_ok] at h
  injection h with h2
  subst h2
  simp [stdHandler, setFile_lookup_ne fs0.files q v p hne]

/-- C1 counterexample: a configuration whose two fields share the relative
path `a.txt`, each handled by the (round-trip-faithful) plain store handler.
Writing `{f1: "x", f2: "y"}` with `overwrite_ok=True` and reading back
yields `{f1: "y", f2: "y"}`, which differs from the data mapping at `f1`
(`"x"`). -/
theorem C1_counterexample :
    (MetaConfig.write sharedPathCfg { absolute := false, segs := ["root"] }
        [("f1", "x"), ("f2", "y")] true
        { cwd := [], fs := { dirs := [[]], files := [] } }).1 = Except.ok () ∧
    (MetaConfig.read sharedPathCfg { absolute := false, segs := ["root"] }
        ((MetaConfig.write sharedPathCfg { absolute := false, segs := ["root"] }
            [("f1", "x"), ("f2", "y")] true
            { cwd := [], fs := { dirs := [[]], files := [] } }).2)).1 =
      Except.ok [("f1", "y"), ("f2", "y")] ∧
    List.lookup "f1" [("f1", "x"), ("f2", "y")] = some "x" :=
  ⟨rfl, rfl, rfl⟩

/-- C1 (amended): for every Composite Configuration whose fields' resolved
paths are pairwise distinct, and every data mapping whose keys are exactly
the declared field names, `write(root, D, overwrite_ok=True)` followed by
`read(root)` returns a mapping equal to `D` — provided the root does not
already exist as a non-directory, no proper prefix of the root exists as a
file (so `mkdir(parents=True)` cannot fail), and each field's handler is
round-trip faithful at its target path (a write with `overwrite_ok`
succeeds, touches no directories, and is read back exactly) and leaves
every other path's reading unchanged. -/
theorem C1_roundtrip (cfg : MetaConfig) (root : PyPath)
    (data : List (String × Val)) (s : Sys)
    (hroot : existsFs s.fs (resolvePath s.cwd root) = true →
        isDirFs s.fs (resolvePath s.cwd root) = true)
    (hpre : prefixFileConflict s.fs (resolvePath s.cwd root) = false)
    (hk : ∀ x ∈ cfg.fields, (data.lookup x.1).isSome = true)
    (hk2 : ∀ nm, (data.lookup nm).isSome = true → nm ∈ cfg.fields.map Prod.fst)
    (hdist : cfg.fields.Pairwise (fun a b =>
        resolveSegs (resolvePath s.cwd root) a.2.path ≠
          resolveSegs (resolvePath s.cwd root) b.2.path))
    (hw : ∀ x ∈ cfg.fields, ∀ p v fs0, ∃ fs3,
        x.2.handler.hwrite p v true fs0 = Except.ok fs3 ∧ fs3.dirs = fs0.dirs)
    (hfaith : ∀ x ∈ cfg.fields, ∀ p v fs0 fs1,
        x.2.handler.hwrite p v true fs0 = Except.ok fs1 →
        x.2.handler.hread p fs1 = Except.ok v)
    (hfr : ∀ x ∈ cfg.fields, ∀ y ∈ cfg.fields, ∀ p q v fs0 fs1, p ≠ q →
        y.2.handler.hwrite q v true fs0 = Except.ok fs1 →
        x.2.handler.hread p fs1 = x.2.handler.hread p fs0) :
    (MetaConfig.write cfg root data true s).1 = Except.ok () ∧
    ∃ out,
      (MetaConfig.read cfg root ((MetaConfig.write cfg root data true s).2)).1 =
        Except.ok out ∧
      ∀ nm, out.lookup nm = data.lookup nm := by
  have key : ∃ fsStart fs2,
      MetaConfig.write cfg root data true s =
        (Except.ok (), { cwd := s.cwd, fs := fs2 }) ∧
      writeFieldsLoop (resolvePath s.cwd root) data true cfg.fields fsStart =
        (none, fs2) ∧
      isDirFs fs2 (resolvePath s.cwd root) = true := by
    by_cases hd : isDirFs s.fs (resolvePath s.cwd root) = true
    · obtain ⟨fs2, hrun, hdirs⟩ :=
        writeFieldsLoop_ok (resolvePath s.cwd root) data cfg.fields s.fs hk hw
      refine ⟨s.fs, fs2, ?_, hrun, ?_⟩
      · simp [MetaConfig.write, hd, hrun]
      · simp only [isDirFs, hdirs] at hd ⊢
        exact hd
    · have hex : existsFs s.fs (resolvePath s.cwd root) = false := by
        cases hex0 : existsFs s.fs (resolvePath s.cwd root) with
        | true => exact absurd (hroot hex0) hd
        | false => rfl
      have hmk : mkdirParents s.fs (resolvePath s.cwd root) =
          Except.ok
            { s.fs with dirs := s.fs.dirs ++ (resolvePath s.cwd root).inits } := by
        simp [mkdirParents, hpre, hex]
      obtain ⟨fs2, hrun, hdirs⟩ :=
        writeFieldsLoop_ok (resolvePath s.cwd root) data cfg.fields
          { s.fs with dirs := s.fs.dirs ++ (resolvePath s.cwd root).inits } hk hw
      refine ⟨{ s.fs with dirs := s.fs.dirs ++ (resolvePath s.cwd root).inits },
        fs2, ?_, hrun, ?_⟩
      · simp [MetaConfig.write, hd, hmk, hrun]
      · have hmem : (resolvePath s.cwd root) ∈ fs2.dirs := by
          rw [hdirs]
          simp [List.mem_inits]
        simp [isDirFs, hmem]
  obtain ⟨fsStart, fs2, hwr, hrun, hread_dir⟩ := key
  have hreads := writeFieldsLoop_readback (resolvePath s.cwd root) data cfg.fields
      fsStart fs2 hk hw hfaith hfr hdist hrun
  obtain ⟨out, hro, hkeys, hvals⟩ :=
    readFieldsLoop_ok (resolvePath s.cwd root) fs2 data cfg.fields hreads
  refine ⟨by rw [hwr], out, ?_, ?_⟩
  · rw [hwr]
    simp [MetaConfig.read, hread_dir, hro]
  · exact lookup_agrees out data hvals (fun nm hnm => by rw [hkeys]; exact hk2 nm hnm)

/-- C1 witness: the amended round-trip theorem applied to a two-field
configuration with distinct paths and plain store handlers. -/
theorem C1_witness :
    (MetaConfig.write twoFieldCfg { absolute := false, segs := ["root"] }
        [("f1", "x"), ("f2", "y")] true
        { cwd := [], fs := { dirs := [[]], files := [] } }).1 = Except.ok () ∧
    ∃ out,
      (MetaConfig.read twoFieldCfg { absolute := false, segs := ["root"] }
          ((MetaConfig.write twoFieldCfg { absolute := false, segs := ["root"] }
              [("f1", "x"), ("f2", "y")] true
              { cwd := [], fs := { dirs := [[]], files := [] } }).2)).1 =
        Except.ok out ∧
      ∀ nm, out.lookup nm = List.lookup nm [("f1", "x"), ("f2", "y")] := by
  apply C1_roundtrip
  · decide
  · decide
  · intro x hx
    simp only [twoFieldCfg] at hx
    fin_cases hx <;> decide
  · intro nm hnm
    by_cases h1 : nm = "f1"
    · subst h1
      simp [twoFieldCfg]
    · by_cases h2 : nm = "f2"
      · subst h2
        simp [twoFieldCfg]
      · exfalso
        have hb1 : (nm == "f1") = false := beq_eq_false_iff_ne.mpr h1
        have hb2 : (nm == "f2") = false := beq_eq_false_iff_ne.mpr h2
        simp [List.lookup, hb1, hb2] at hnm
  · decide
  · intro x hx
    simp only [twoFieldCfg] at hx
    fin_cases hx <;>
      exact fun p v fs0 => ⟨_, stdHandler_write_ok p v fs0, rfl⟩
  · intro x hx
    simp only [twoFieldCfg] at hx
    fin_cases hx <;>
      exact fun p v fs0 fs1 h => stdHandler_faithful p v fs0 fs1 h
  · intro x hx y hy
    simp only [twoFieldCfg] at hx hy
    fin_cases hx <;> fin_cases hy <;>
      exact fun p q v fs0 fs1 hne hq => stdHandler_frame p q v fs0 fs1 hne hq

end Metaconf
